import Mathlib

/-
Verification of the cursor-based bulk extraction pipeline (extract.py).

The embedding models the pipeline over an abstract value type V for record
payloads and an abstract error type E for backend faults.  A record is an
association list from field names to optional values, where the value
none models a null value, mirroring dynamically shaped source documents.
Process-terminating behavior of the Python components, which call
sys.exit(1) on their failure paths, is modeled by the PyResult type:
PyResult.exit c means the component terminates the whole process with
status c instead of returning.  Backend interactions are modeled by
explicit response scripts: one entry per search call, each either a page
of hits or an injected backend error.  Filesystem effects of writing a
chunk are modeled by a success predicate writeOk indexed by chunk number,
since the code logs and swallows write failures.
-/

namespace Elk

/-- A record maps field names to optional values; none models a null value. -/
abbrev LogRec (V : Type) := List (String × Option V)

/-- Python dict lookup with default None: returns the stored value when the
key is present and none otherwise. -/
def dictGet {V : Type} (r : LogRec V) (k : String) : Option V :=
  match r.lookup k with
  | some v => v
  | none => none

/-- Python truthiness of an optional string: None and the empty string are falsy. -/
def strTruthy : Option String → Bool
  | none => false
  | some s => !(s == "")

/-- Python truthiness of an optional list: None and the empty list are falsy. -/
def listTruthy {α : Type} : Option (List α) → Bool
  | none => false
  | some [] => false
  | some (_ :: _) => true

/-- The range object built for the timestamp filter: gte and lte keys are
each present only when the corresponding bound was supplied. -/
structure DateRange where
  gte : Option String
  lte : Option String
deriving DecidableEq, Repr

/-- One filter clause of the query: a level match or a timestamp range. -/
inductive QFilter where
  | matchLevel (level : String)
  | rangeTimestamp (r : DateRange)
deriving DecidableEq, Repr

/-- The bool.must part of the query: either a list of clauses combined by
logical AND, or the explicit match_all marker. -/
inductive MustClause where
  | clauses (fs : List QFilter)
  | matchAll
deriving DecidableEq, Repr

/-- The query document produced by build_query. -/
structure QueryBody where
  size : Nat
  sortTimestampAsc : Bool
  pitId : String
  pitKeepAlive : String
  must : MustClause
  searchAfter : Option (List Int)
deriving DecidableEq, Repr

/-- Embedding of build_query from extract.py: collects the level filter and
the timestamp range filter, falls back to match_all when no filter was
supplied, and appends the cursor only when it is truthy. -/
def build_query (pit_id : String) (search_after : Option (List Int))
    (level : Option String) (start_date end_date : Option String)
    (batch_size : Nat) : QueryBody :=
  let levelFilters : List QFilter :=
    if strTruthy level then [QFilter.matchLevel (level.getD "")] else []
  let dateFilters : List QFilter :=
    if strTruthy start_date || strTruthy end_date then
      [QFilter.rangeTimestamp
        { gte := if strTruthy start_date then start_date else none,
          lte := if strTruthy end_date then end_date else none }]
    else []
  let filters := levelFilters ++ dateFilters
  { size := batch_size
    sortTimestampAsc := true
    pitId := pit_id
    pitKeepAlive := "1m"
    must := if filters.isEmpty then MustClause.matchAll else MustClause.clauses filters
    searchAfter := if listTruthy search_after then search_after else none }

/-- The list of clauses under bool.must; empty for the match_all marker. -/
def mustFilters : MustClause → List QFilter
  | MustClause.clauses fs => fs
  | MustClause.matchAll => []

/-- The level strings appearing among the must clauses of a query. -/
def levelFiltersOf (q : QueryBody) : List String :=
  (mustFilters q.must).filterMap fun f =>
    match f with
    | QFilter.matchLevel l => some l
    | QFilter.rangeTimestamp _ => none

/-- The timestamp range objects appearing among the must clauses of a query. -/
def rangeFiltersOf (q : QueryBody) : List DateRange :=
  (mustFilters q.must).filterMap fun f =>
    match f with
    | QFilter.matchLevel _ => none
    | QFilter.rangeTimestamp r => some r

/-- Field projection as performed inline in fetch_logs: a dict comprehension
over the requested fields, reading each with dict get and default None. -/
def project {V : Type} (fields : List String) (r : LogRec V) : LogRec V :=
  fields.map fun k => (k, dictGet r k)

/-- One record as buffered by fetch_logs: projected when the fields argument
is truthy in the Python sense, otherwise kept unchanged. -/
def stepLog {V : Type} (fields : Option (List String)) (r : LogRec V) : LogRec V :=
  if listTruthy fields then project (fields.getD []) r else r

/-- Result of a component that either returns a value or terminates the
process via sys.exit with the given status code. -/
inductive PyResult (α : Type) where
  | ret (a : α)
  | exit (code : Nat)
deriving DecidableEq, Repr

/-- Embedding of validate_index_exists: the backend existence check either
raises a transport error or answers a boolean; both the error and the
missing-index answer make the component terminate the process. -/
def validate_index_exists (existsResp : Except String Bool) : PyResult Unit :=
  match existsResp with
  | Except.error _ => PyResult.exit 1
  | Except.ok b => if b then PyResult.ret () else PyResult.exit 1

/-- The response dictionary of the backend open-point-in-time call, with the
two keys the code consults. -/
structure PitResponse where
  pit_id : Option String
  id : Option String
deriving DecidableEq, Repr

/-- Python or between two optional strings: the first operand when truthy,
otherwise the second. -/
def pyOrStr (a b : Option String) : Option String :=
  if strTruthy a then a else b

/-- Embedding of open_point_in_time: a transport error or a falsy resolved
handle makes the component terminate the process; otherwise the handle is
returned. -/
def open_point_in_time (pitResp : Except String PitResponse) : PyResult String :=
  match pitResp with
  | Except.error _ => PyResult.exit 1
  | Except.ok r =>
    match pyOrStr r.pit_id r.id with
    | none => PyResult.exit 1
    | some s => if s == "" then PyResult.exit 1 else PyResult.ret s

/-- Embedding of get_output_directory: builds the run directory path and
terminates the process when directory creation fails with an OS error. -/
def get_output_directory (mkdirOk : Bool) (base_dir index run_id : String) :
    PyResult String :=
  let output_dir := base_dir ++ "/" ++ index ++ "/run_" ++ run_id
  if mkdirOk then PyResult.ret output_dir else PyResult.exit 1

/-- Observable outcome of close_point_in_time_with_retries: how many close
attempts were made, how many warnings were logged, whether some attempt
succeeded, and whether the final exhaustion error was logged. -/
structure CloseResult where
  attempts : Nat
  warnings : Nat
  succeeded : Bool
  errorLogged : Bool
deriving DecidableEq, Repr

/-- The retry loop of close_point_in_time_with_retries: attempt numbers
count from the given start, closeOk tells whether a given attempt number
succeeds, and the Nat argument is the number of remaining attempts. -/
def closeAttempts (closeOk : Nat → Bool) : Nat → Nat → CloseResult
  | _, 0 => { attempts := 0, warnings := 0, succeeded := false, errorLogged := true }
  | attempt, n + 1 =>
    if closeOk attempt then
      { attempts := 1, warnings := 0, succeeded := true, errorLogged := false }
    else
      let r := closeAttempts closeOk (attempt + 1) n
      { attempts := r.attempts + 1, warnings := r.warnings + 1,
        succeeded := r.succeeded, errorLogged := r.errorLogged }

/-- Embedding of close_point_in_time_with_retries: attempts run from 1 up to
the retry bound; every attempt failure is caught inside the loop, so the
function always returns a result and never propagates an error. -/
def close_point_in_time_with_retries (closeOk : Nat → Bool) (retries : Nat) :
    CloseResult :=
  closeAttempts closeOk 1 retries

/-- One call to save_logs_to_csv: the chunk index passed, the buffered
records passed, and whether the underlying file write succeeded.  The code
catches OSError and any other exception inside save_logs_to_csv, so the
call itself always returns and the flag only records the outcome. -/
structure SaveEvent (V : Type) where
  index : Nat
  logs : List (LogRec V)
  ok : Bool
deriving DecidableEq, Repr

/-- The chunk sink portion of the mutable state of fetch_logs: the current
in-memory buffer, the save calls made so far, the next chunk index, and the
running record counter. -/
structure SinkSt (V : Type) where
  buffer : List (LogRec V)
  saves : List (SaveEvent V)
  chunkCounter : Nat
  totalLogs : Nat
deriving DecidableEq, Repr

/-- Appending one already-projected record to the sink, mirroring the body
of the inner for loop of fetch_logs: push the record, bump the counter, and
flush the buffer as a chunk once its length reaches the threshold k. -/
def sinkAppend {V : Type} (k : Nat) (writeOk : Nat → Bool) (st : SinkSt V)
    (log : LogRec V) : SinkSt V :=
  let buf := st.buffer ++ [log]
  if k ≤ buf.length then
    { buffer := [],
      saves := st.saves ++ [{ index := st.chunkCounter, logs := buf,
                              ok := writeOk st.chunkCounter }],
      chunkCounter := st.chunkCounter + 1,
      totalLogs := st.totalLogs + 1 }
  else
    { st with buffer := buf, totalLogs := st.totalLogs + 1 }

/-- Processing one raw hit source: project it as fetch_logs does and feed it
to the sink. -/
def processRecord {V : Type} (fields : Option (List String)) (k : Nat)
    (writeOk : Nat → Bool) (st : SinkSt V) (src : LogRec V) : SinkSt V :=
  sinkAppend k writeOk st (stepLog fields src)

/-- One hit of a search response, carrying its source document and its sort
key tuple. -/
structure Hit (V : Type) where
  source : LogRec V
  sortKey : List Int
deriving DecidableEq, Repr

/-- Folding a whole page of hits through the sink. -/
def pageFold {V : Type} (fields : Option (List String)) (k : Nat)
    (writeOk : Nat → Bool) (s : SinkSt V) (hits : List (Hit V)) : SinkSt V :=
  hits.foldl (fun s h => processRecord fields k writeOk s h.source) s

/-- How the pagination loop ended: exhaustion detected via an empty page, or
a backend error raised by a search call. -/
inductive LoopExit (E : Type) where
  | finished
  | errored (e : E)
deriving DecidableEq, Repr

/-- Full mutable state of the pagination loop of fetch_logs. -/
structure LoopSt (V : Type) where
  sink : SinkSt V
  searchCalls : Nat
  searchAfter : Option (List Int)
deriving DecidableEq, Repr

/-- The pagination loop of fetch_logs over a backend response script: each
script entry answers one search call with either a page of hits or an
error.  An empty page breaks the loop; an exhausted script behaves like a
backend that answers every further search with an empty page. -/
def runLoop {V E : Type} (fields : Option (List String)) (k : Nat)
    (writeOk : Nat → Bool) :
    List (Except E (List (Hit V))) → LoopSt V → LoopSt V × LoopExit E
  | [], st => ({ st with searchCalls := st.searchCalls + 1 }, LoopExit.finished)
  | Except.error e :: _, st =>
      ({ st with searchCalls := st.searchCalls + 1 }, LoopExit.errored e)
  | Except.ok [] :: _, st =>
      ({ st with searchCalls := st.searchCalls + 1 }, LoopExit.finished)
  | Except.ok (h :: hs) :: rest, st =>
      runLoop fields k writeOk rest
        { sink := pageFold fields k writeOk st.sink (h :: hs),
          searchCalls := st.searchCalls + 1,
          searchAfter :=
            match (h :: hs).getLast? with
            | some hh => some hh.sortKey
            | none => st.searchAfter }

/-- The initial loop state of one run. -/
def initLoopSt {V : Type} : LoopSt V :=
  { sink := { buffer := [], saves := [], chunkCounter := 1, totalLogs := 0 },
    searchCalls := 0,
    searchAfter := none }

/-- The remainder flush after the loop: one more save call when the buffer
is nonempty, with the current chunk index; nothing otherwise. -/
def finalSaves {V : Type} (writeOk : Nat → Bool) (s : SinkSt V) :
    List (SaveEvent V) :=
  if s.buffer.isEmpty then s.saves
  else s.saves ++ [{ index := s.chunkCounter, logs := s.buffer,
                     ok := writeOk s.chunkCounter }]

/-- How one run of fetch_logs ended: normal completion, a backend error
propagated to the caller, or process termination via sys.exit. -/
inductive RunExit (E : Type) where
  | ok
  | backendError (e : E)
  | processExit (code : Nat)
deriving DecidableEq, Repr

/-- Observable outcome of one run of fetch_logs. -/
structure FetchResult (V E : Type) where
  pitOpened : Bool
  openedPit : Option String
  closeCalls : Nat
  closedPit : Option String
  closeResult : Option CloseResult
  saves : List (SaveEvent V)
  totalLogs : Nat
  searchCalls : Nat
  outputDir : Option String
  exit : RunExit E
deriving DecidableEq, Repr

/-- Embedding of fetch_logs: validate the index, open the point in time,
create the output directory, run the pagination loop, flush the remainder
on normal completion only, and close the point in time in the finally
block.  The order matters: the snapshot is opened before the output
directory is created, and only the pagination loop is guarded by the
try block whose finally clause closes the snapshot. -/
def fetch_logs {V E : Type} (existsResp : Except String Bool)
    (pitResp : Except String PitResponse) (mkdirOk : Bool)
    (base_dir index run_id : String) (fields : Option (List String))
    (max_logs_per_chunk : Nat) (writeOk : Nat → Bool)
    (script : List (Except E (List (Hit V)))) (closeOk : Nat → Bool) :
    FetchResult V E :=
  match validate_index_exists existsResp with
  | PyResult.exit c =>
      { pitOpened := false, openedPit := none, closeCalls := 0,
        closedPit := none, closeResult := none, saves := [], totalLogs := 0,
        searchCalls := 0, outputDir := none, exit := RunExit.processExit c }
  | PyResult.ret _ =>
    match open_point_in_time pitResp with
    | PyResult.exit c =>
        { pitOpened := false, openedPit := none, closeCalls := 0,
          closedPit := none, closeResult := none, saves := [], totalLogs := 0,
          searchCalls := 0, outputDir := none, exit := RunExit.processExit c }
    | PyResult.ret pid =>
      match get_output_directory mkdirOk base_dir index run_id with
      | PyResult.exit c =>
          { pitOpened := true, openedPit := some pid, closeCalls := 0,
            closedPit := none, closeResult := none, saves := [], totalLogs := 0,
            searchCalls := 0, outputDir := none, exit := RunExit.processExit c }
      | PyResult.ret dir =>
          { pitOpened := true, openedPit := some pid, closeCalls := 1,
            closedPit := some pid,
            closeResult := some (close_point_in_time_with_retries closeOk 3),
            saves :=
              match (runLoop fields max_logs_per_chunk writeOk script initLoopSt).snd with
              | LoopExit.finished =>
                  finalSaves writeOk
                    (runLoop fields max_logs_per_chunk writeOk script initLoopSt).fst.sink
              | LoopExit.errored _ =>
                  (runLoop fields max_logs_per_chunk writeOk script initLoopSt).fst.sink.saves,
            totalLogs :=
              (runLoop fields max_logs_per_chunk writeOk script initLoopSt).fst.sink.totalLogs,
            searchCalls :=
              (runLoop fields max_logs_per_chunk writeOk script initLoopSt).fst.searchCalls,
            outputDir := some dir,
            exit :=
              match (runLoop fields max_logs_per_chunk writeOk script initLoopSt).snd with
              | LoopExit.finished => RunExit.ok
              | LoopExit.errored e => RunExit.backendError e }

/-- Reference chunking function: greedy slices of size k.  Used as the
specification value that the sink is proved to produce. -/
def chunkSpec {α : Type} (k : Nat) (l : List α) : List (List α) :=
  match l with
  | [] => []
  | x :: xs =>
    if _hk0 : k = 0 then [] else
      (x :: xs).take k :: chunkSpec k ((x :: xs).drop k)
termination_by l.length
decreasing_by
  simp [List.length_drop]
  omega

/-- Unfolding equation of chunkSpec on the empty list. -/
theorem chunkSpec_nil {α : Type} (k : Nat) : chunkSpec k ([] : List α) = [] := by
  rw [chunkSpec]

/-- Unfolding equation of chunkSpec on a nonempty list with positive k. -/
theorem chunkSpec_cons {α : Type} {k : Nat} (hk : k ≠ 0) (x : α) (xs : List α) :
    chunkSpec k (x :: xs) = (x :: xs).take k :: chunkSpec k ((x :: xs).drop k) := by
  rw [chunkSpec]
  simp [hk]

/-- Unfolding equation of chunkSpec on any nonempty list with positive k. -/
theorem chunkSpec_ne_nil {α : Type} {k : Nat} (hk : k ≠ 0) {l : List α}
    (hl : l ≠ []) : chunkSpec k l = l.take k :: chunkSpec k (l.drop k) := by
  cases l with
  | nil => exact absurd rfl hl
  | cons x xs => exact chunkSpec_cons hk x xs

/-- Ceiling division on naturals. -/
def ceilDiv (n k : Nat) : Nat := (n + k - 1) / k

/-- A possibly empty trailing chunk: the empty list when the buffer is
empty, otherwise the buffer as a single chunk. -/
def bufOpt {α : Type} (b : List α) : List (List α) :=
  if b.isEmpty then [] else [b]

/-- Case equation of sinkAppend when the buffer reaches the threshold. -/
theorem sinkAppend_of_full {V : Type} {k : Nat} {w : Nat → Bool} {st : SinkSt V}
    {a : LogRec V} (h : k ≤ (st.buffer ++ [a]).length) :
    sinkAppend k w st a =
      { buffer := [],
        saves := st.saves ++ [{ index := st.chunkCounter, logs := st.buffer ++ [a],
                                ok := w st.chunkCounter }],
        chunkCounter := st.chunkCounter + 1,
        totalLogs := st.totalLogs + 1 } := by
  have h2 : k ≤ st.buffer.length + 1 := by simpa using h
  simp [sinkAppend, h2]

/-- Case equation of sinkAppend below the threshold. -/
theorem sinkAppend_of_not_full {V : Type} {k : Nat} {w : Nat → Bool} {st : SinkSt V}
    {a : LogRec V} (h : ¬ k ≤ (st.buffer ++ [a]).length) :
    sinkAppend k w st a =
      { st with buffer := st.buffer ++ [a], totalLogs := st.totalLogs + 1 } := by
  have h2 : ¬ k ≤ st.buffer.length + 1 := by simp at h ⊢; omega
  simp [sinkAppend, h2]

/-- A list no longer than the threshold forms at most one chunk. -/
theorem chunkSpec_short {α : Type} {k : Nat} (hk : k ≠ 0) {l : List α}
    (h : l.length ≤ k) : chunkSpec k l = bufOpt l := by
  cases l with
  | nil => rw [chunkSpec_nil]; rfl
  | cons x xs =>
    rw [chunkSpec_cons hk, List.take_of_length_le h, List.drop_eq_nil_of_le h,
      chunkSpec_nil]
    rfl

/-- Prepending one full chunk to a stream prepends it to the chunking. -/
theorem chunkSpec_append_full {α : Type} {k : Nat} (hk : k ≠ 0) {c q : List α}
    (hc : c.length = k) : chunkSpec k (c ++ q) = c :: chunkSpec k q := by
  have hcne : c ≠ [] := by
    intro hnil
    rw [hnil] at hc
    simp at hc
    omega
  have hne : c ++ q ≠ [] := by
    cases c with
    | nil => exact absurd rfl hcne
    | cons x xs => simp
  rw [chunkSpec_ne_nil hk hne, ← hc, List.take_left, List.drop_left]

/-- The sink counts every appended record. -/
theorem sink_foldl_total {V : Type} (k : Nat) (w : Nat → Bool) :
    ∀ (q : List (LogRec V)) (st : SinkSt V),
    (q.foldl (sinkAppend k w) st).totalLogs = st.totalLogs + q.length := by
  intro q
  induction q with
  | nil => intro st; simp
  | cons a q ih =>
    intro st
    rw [List.foldl_cons, ih]
    by_cases h : k ≤ (st.buffer ++ [a]).length
    · rw [sinkAppend_of_full h]; simp; omega
    · rw [sinkAppend_of_not_full h]; simp; omega

/-- Chunk contents produced by the sink fold: the flushed chunks followed by
the trailing buffer are exactly the greedy chunking of the buffered stream. -/
theorem sink_foldl_logs {V : Type} {k : Nat} (hk : 1 ≤ k) (w : Nat → Bool) :
    ∀ (q : List (LogRec V)) (st : SinkSt V), st.buffer.length < k →
    ((q.foldl (sinkAppend k w) st).saves.map SaveEvent.logs)
        ++ bufOpt (q.foldl (sinkAppend k w) st).buffer
      = st.saves.map SaveEvent.logs ++ chunkSpec k (st.buffer ++ q) := by
  intro q
  induction q with
  | nil =>
    intro st hst
    rw [List.foldl_nil, List.append_nil,
      chunkSpec_short (by omega) (Nat.le_of_lt hst)]
  | cons a q ih =>
    intro st hst
    rw [List.foldl_cons]
    by_cases h : k ≤ (st.buffer ++ [a]).length
    · have hlen : (st.buffer ++ [a]).length = k := by
        rw [List.length_append] at h ⊢
        simp at h ⊢
        omega
      rw [sinkAppend_of_full h]
      rw [ih _ (by simp; omega)]
      simp only [List.map_append, List.map_cons, List.map_nil, List.nil_append]
      rw [List.append_assoc]
      rw [show st.buffer ++ a :: q = (st.buffer ++ [a]) ++ q by simp]
      rw [chunkSpec_append_full (by omega) hlen]
      rfl
    · rw [sinkAppend_of_not_full h]
      rw [ih _ (by simp at h ⊢; omega)]
      rw [show st.buffer ++ a :: q = (st.buffer ++ [a]) ++ q by simp]

/-- Chunk indices produced by the sink fold are consecutive from the
starting counter, and the counter advances by the number of flushes. -/
theorem sink_foldl_indices {V : Type} (k : Nat) (w : Nat → Bool) :
    ∀ (q : List (LogRec V)) (st : SinkSt V),
    ∃ m, (q.foldl (sinkAppend k w) st).chunkCounter = st.chunkCounter + m ∧
      (q.foldl (sinkAppend k w) st).saves.map SaveEvent.index
        = st.saves.map SaveEvent.index ++ List.range' st.chunkCounter m ∧
      (q.foldl (sinkAppend k w) st).saves.length = st.saves.length + m := by
  intro q
  induction q with
  | nil =>
    intro st
    refine ⟨0, by simp, by simp [List.range'], by simp⟩
  | cons a q ih =>
    intro st
    rw [List.foldl_cons]
    by_cases h : k ≤ (st.buffer ++ [a]).length
    · rw [sinkAppend_of_full h]
      obtain ⟨m, h1, h2, h3⟩ := ih
        { buffer := [],
          saves := st.saves ++ [{ index := st.chunkCounter,
                                  logs := st.buffer ++ [a],
                                  ok := w st.chunkCounter }],
          chunkCounter := st.chunkCounter + 1,
          totalLogs := st.totalLogs + 1 }
      refine ⟨m + 1, ?_, ?_, ?_⟩
      · rw [h1]; simp; omega
      · rw [h2, List.range'_succ]
        simp [List.append_assoc]
      · rw [h3]; simp; omega
    · rw [sinkAppend_of_not_full h]
      obtain ⟨m, h1, h2, h3⟩ := ih
        { st with buffer := st.buffer ++ [a], totalLogs := st.totalLogs + 1 }
      exact ⟨m, h1, h2, h3⟩

/-- The recorded write outcome of every save call is the writeOk predicate
applied to the chunk index of that call. -/
theorem sink_foldl_okcol {V : Type} (k : Nat) (w : Nat → Bool) :
    ∀ (q : List (LogRec V)) (st : SinkSt V),
    st.saves.map SaveEvent.ok = (st.saves.map SaveEvent.index).map w →
    (q.foldl (sinkAppend k w) st).saves.map SaveEvent.ok
      = ((q.foldl (sinkAppend k w) st).saves.map SaveEvent.index).map w := by
  intro q
  induction q with
  | nil => intro st hst; simpa using hst
  | cons a q ih =>
    intro st hst
    rw [List.foldl_cons]
    by_cases h : k ≤ (st.buffer ++ [a]).length
    · rw [sinkAppend_of_full h]
      exact ih _ (by simp [hst])
    · rw [sinkAppend_of_not_full h]
      exact ih _ (by simpa using hst)

/-- The sink never loses or reorders records: the concatenation of all save
call payloads followed by the trailing buffer equals the prior contents
followed by the appended stream.  This holds for every threshold. -/
theorem sink_foldl_flatten {V : Type} (k : Nat) (w : Nat → Bool) :
    ∀ (q : List (LogRec V)) (st : SinkSt V),
    ((q.foldl (sinkAppend k w) st).saves.map SaveEvent.logs).flatten
        ++ (q.foldl (sinkAppend k w) st).buffer
      = (st.saves.map SaveEvent.logs).flatten ++ st.buffer ++ q := by
  intro q
  induction q with
  | nil => intro st; simp
  | cons a q ih =>
    intro st
    rw [List.foldl_cons]
    by_cases h : k ≤ (st.buffer ++ [a]).length
    · rw [sinkAppend_of_full h, ih]
      simp [List.append_assoc]
    · rw [sinkAppend_of_not_full h, ih]
      simp [List.append_assoc]

/-- Step equation of ceiling division. -/
theorem ceilDiv_step {k n : Nat} (hk : 1 ≤ k) (hn : 1 ≤ n) :
    ceilDiv n k = ceilDiv (n - k) k + 1 := by
  unfold ceilDiv
  by_cases hnk : k ≤ n
  · rw [show n + k - 1 = (n - k + k - 1) + k by omega,
      Nat.add_div_right _ (by omega)]
  · rw [show n - k = 0 by omega,
      show n + k - 1 = (n - 1) + k by omega,
      Nat.add_div_right _ (by omega),
      Nat.div_eq_of_lt (show n - 1 < k by omega),
      Nat.div_eq_of_lt (show 0 + k - 1 < k by omega)]

/-- The greedy chunking of the empty stream only. -/
theorem chunkSpec_eq_nil_iff {α : Type} {k : Nat} (hk : 1 ≤ k) (l : List α) :
    chunkSpec k l = [] ↔ l = [] := by
  constructor
  · intro h
    cases l with
    | nil => rfl
    | cons x xs =>
      rw [chunkSpec_cons (by omega)] at h
      simp at h
  · intro h
    rw [h, chunkSpec_nil]

/-- The number of greedy chunks is the ceiling of the stream length over the
threshold. -/
theorem chunkSpec_length {α : Type} {k : Nat} (hk : 1 ≤ k) (l : List α) :
    (chunkSpec k l).length = ceilDiv l.length k := by
  suffices h : ∀ n (l : List α), l.length ≤ n →
      (chunkSpec k l).length = ceilDiv l.length k from h l.length l (Nat.le_refl _)
  intro n
  induction n with
  | zero =>
    intro l hl
    have hnil : l = [] := by
      cases l with
      | nil => rfl
      | cons x xs => simp at hl
    subst hnil
    rw [chunkSpec_nil]
    simp [ceilDiv]
    rw [Nat.div_eq_of_lt (by omega)]
  | succ n ih =>
    intro l hl
    cases l with
    | nil =>
      rw [chunkSpec_nil]
      simp [ceilDiv]
      rw [Nat.div_eq_of_lt (by omega)]
    | cons x xs =>
      have hb : ((x :: xs).drop k).length ≤ n := by
        rw [List.length_drop]
        simp only [List.length_cons] at hl ⊢
        omega
      rw [chunkSpec_cons (by omega)]
      simp only [List.length_cons]
      rw [ih _ hb, List.length_drop]
      simp only [List.length_cons]
      rw [ceilDiv_step hk (show 1 ≤ xs.length + 1 by omega)]

/-- Every greedy chunk is nonempty and no longer than the threshold. -/
theorem chunkSpec_mem {α : Type} {k : Nat} (hk : 1 ≤ k) (l : List α) :
    ∀ c ∈ chunkSpec k l, c.length ≤ k ∧ c ≠ [] := by
  suffices h : ∀ n (l : List α), l.length ≤ n →
      ∀ c ∈ chunkSpec k l, c.length ≤ k ∧ c ≠ [] from h l.length l (Nat.le_refl _)
  intro n
  induction n with
  | zero =>
    intro l hl
    have hnil : l = [] := by
      cases l with
      | nil => rfl
      | cons x xs => simp at hl
    subst hnil
    rw [chunkSpec_nil]
    intro c hc
    simp at hc
  | succ n ih =>
    intro l hl
    cases l with
    | nil =>
      rw [chunkSpec_nil]
      intro c hc
      simp at hc
    | cons x xs =>
      have hb : ((x :: xs).drop k).length ≤ n := by
        rw [List.length_drop]
        simp only [List.length_cons] at hl ⊢
        omega
      rw [chunkSpec_cons (by omega)]
      intro c hc
      rcases List.mem_cons.mp hc with hc | hc
      · subst hc
        constructor
        · simp [List.length_take]
        · have hne0 : ((x :: xs).take k).length ≠ 0 := by
            simp [List.length_take]
            omega
          intro hcon
          rw [hcon] at hne0
          simp at hne0
      · exact ih _ hb c hc

/-- Helper: getLast? ignores a leading element when the tail is nonempty. -/
theorem getLast?_cons_of_ne_nil {α : Type} (a : α) {l : List α} (h : l ≠ []) :
    (a :: l).getLast? = l.getLast? := by
  cases l with
  | nil => exact absurd rfl h
  | cons b bs => exact List.getLast?_cons_cons

/-- All greedy chunks except the last have exactly the threshold size. -/
theorem chunkSpec_dropLast {α : Type} {k : Nat} (hk : 1 ≤ k) (l : List α) :
    ((chunkSpec k l).map List.length).dropLast
      = List.replicate ((chunkSpec k l).length - 1) k := by
  suffices h : ∀ n (l : List α), l.length ≤ n →
      ((chunkSpec k l).map List.length).dropLast
        = List.replicate ((chunkSpec k l).length - 1) k from
    h l.length l (Nat.le_refl _)
  intro n
  induction n with
  | zero =>
    intro l hl
    have hnil : l = [] := by
      cases l with
      | nil => rfl
      | cons x xs => simp at hl
    subst hnil
    rw [chunkSpec_nil]
    rfl
  | succ n ih =>
    intro l hl
    cases l with
    | nil =>
      rw [chunkSpec_nil]
      rfl
    | cons x xs =>
      by_cases hlen : (x :: xs).length ≤ k
      · rw [chunkSpec_short (by omega) hlen]
        rfl
      · rw [chunkSpec_ne_nil (by omega) (by simp)]
        have hlen2 : k < xs.length + 1 := by
          simp only [List.length_cons] at hlen
          omega
        have hdropne : (x :: xs).drop k ≠ [] := by
          intro hd
          have := congrArg List.length hd
          simp [List.length_drop] at this
          omega
        have hrestne : chunkSpec k ((x :: xs).drop k) ≠ [] := by
          rw [chunkSpec_ne_nil (by omega) hdropne]
          simp
        have htake : ((x :: xs).take k).length = k := by
          simp [List.length_take]
          omega
        have hb : ((x :: xs).drop k).length ≤ n := by
          rw [List.length_drop]
          simp only [List.length_cons] at hl ⊢
          omega
        cases hrest : chunkSpec k ((x :: xs).drop k) with
        | nil => exact absurd hrest hrestne
        | cons r rs =>
          have ihr := ih ((x :: xs).drop k) hb
          rw [hrest] at ihr
          simp only [List.map_cons, List.length_cons] at ihr
          simp only [List.map_cons, List.dropLast_cons₂, List.length_cons]
          rw [htake, ihr]
          simp [List.replicate_succ]

/-- The size of the last greedy chunk: the stream length modulo the
threshold, or the threshold itself when the stream length divides evenly. -/
theorem chunkSpec_getLast {α : Type} {k : Nat} (hk : 1 ≤ k) (l : List α) :
    ((chunkSpec k l).map List.length).getLast?
      = if l.length = 0 then none
        else some (if l.length % k = 0 then k else l.length % k) := by
  suffices h : ∀ n (l : List α), l.length ≤ n →
      ((chunkSpec k l).map List.length).getLast?
        = if l.length = 0 then none
          else some (if l.length % k = 0 then k else l.length % k) from
    h l.length l (Nat.le_refl _)
  intro n
  induction n with
  | zero =>
    intro l hl
    have hnil : l = [] := by
      cases l with
      | nil => rfl
      | cons x xs => simp at hl
    subst hnil
    rw [chunkSpec_nil]
    rfl
  | succ n ih =>
    intro l hl
    cases l with
    | nil =>
      rw [chunkSpec_nil]
      rfl
    | cons x xs =>
      have hpos : (x :: xs).length ≠ 0 := by simp
      by_cases hlen : (x :: xs).length ≤ k
      · rw [chunkSpec_short (by omega) hlen]
        have hbuf : bufOpt (x :: xs) = [x :: xs] := by simp [bufOpt]
        rw [hbuf]
        simp only [List.map_cons, List.map_nil, List.getLast?_singleton]
        rw [if_neg hpos]
        by_cases hlt : (x :: xs).length < k
        · rw [Nat.mod_eq_of_lt hlt, if_neg hpos]
        · have hek : (x :: xs).length = k := by omega
          rw [hek, Nat.mod_self, if_pos rfl]
      · rw [chunkSpec_ne_nil (by omega) (by simp)]
        have hlen2 : k < xs.length + 1 := by
          simp only [List.length_cons] at hlen
          omega
        have hdropne : (x :: xs).drop k ≠ [] := by
          intro hd
          have := congrArg List.length hd
          simp [List.length_drop] at this
          omega
        have hrestne : chunkSpec k ((x :: xs).drop k) ≠ [] := by
          rw [chunkSpec_ne_nil (by omega) hdropne]
          simp
        have hmapne : (chunkSpec k ((x :: xs).drop k)).map List.length ≠ [] := by
          intro hm
          cases hrest : chunkSpec k ((x :: xs).drop k) with
          | nil => exact absurd hrest hrestne
          | cons r rs => rw [hrest] at hm; simp at hm
        have hb : ((x :: xs).drop k).length ≤ n := by
          rw [List.length_drop]
          simp only [List.length_cons] at hl ⊢
          omega
        rw [List.map_cons, getLast?_cons_of_ne_nil _ hmapne]
        rw [ih ((x :: xs).drop k) hb]
        rw [List.length_drop]
        have hd0 : (x :: xs).length - k ≠ 0 := by
          simp at hlen ⊢
          omega
        rw [if_neg hd0, if_neg hpos]
        have hmod : ((x :: xs).length - k) % k = (x :: xs).length % k :=
          (Nat.mod_eq_sub_mod (by omega)).symm
        rw [hmod]

/-- Folding a concatenation of pages folds them in sequence. -/
theorem pageFold_append {V : Type} (fields : Option (List String)) (k : Nat)
    (w : Nat → Bool) (s : SinkSt V) (a b : List (Hit V)) :
    pageFold fields k w s (a ++ b) = pageFold fields k w (pageFold fields k w s a) b :=
  List.foldl_append _ _ _ _

/-- The page fold is the sink fold over the projected sources of the hits. -/
theorem pageFold_eq {V : Type} (fields : Option (List String)) (k : Nat)
    (w : Nat → Bool) (s : SinkSt V) (hits : List (Hit V)) :
    pageFold fields k w s hits
      = (hits.map (fun h => stepLog fields h.source)).foldl (sinkAppend k w) s := by
  rw [List.foldl_map]
  rfl

/-- The cursor value held after consuming a list of pages: the sort key of
the last hit of the last nonempty page, or the given initial value. -/
def lastCursor {V : Type} (pages : List (List (Hit V))) (d : Option (List Int)) :
    Option (List Int) :=
  pages.foldl
    (fun acc p =>
      match p.getLast? with
      | some h => some h.sortKey
      | none => acc) d

/-- Consuming a prefix of successful nonempty pages threads the sink, the
call counter and the cursor through and continues with the rest of the
script. -/
theorem runLoop_ok_front {V E : Type} (fields : Option (List String)) (k : Nat)
    (w : Nat → Bool) :
    ∀ (pages : List (List (Hit V))) (tail : List (Except E (List (Hit V))))
      (st : LoopSt V), (∀ p ∈ pages, p ≠ []) →
    runLoop fields k w (pages.map Except.ok ++ tail) st =
      runLoop fields k w tail
        { sink := pageFold fields k w st.sink pages.flatten,
          searchCalls := st.searchCalls + pages.length,
          searchAfter := lastCursor pages st.searchAfter } := by
  intro pages
  induction pages with
  | nil =>
    intro tail st hp
    simp [pageFold, lastCursor]
  | cons p ps ih =>
    intro tail st hp
    have hpne : p ≠ [] := hp p (by simp)
    cases p with
    | nil => exact absurd rfl hpne
    | cons h hs =>
      rw [List.map_cons, List.cons_append]
      simp only [runLoop]
      rw [ih tail _ (by intro q hq; exact hp q (List.mem_cons_of_mem _ hq))]
      refine congrArg (runLoop fields k w tail) ?_
      simp only [LoopSt.mk.injEq]
      refine ⟨?_, ?_, ?_⟩
      · rw [List.flatten_cons, pageFold_append]
      · simp only [List.length_cons]
        omega
      · simp only [lastCursor, List.foldl_cons]

/-- A script of successful nonempty pages runs to completion: one search per
page plus the final empty fetch that detects exhaustion. -/
theorem runLoop_ok_pages {V E : Type} (fields : Option (List String)) (k : Nat)
    (w : Nat → Bool) (pages : List (List (Hit V))) (st : LoopSt V)
    (hp : ∀ p ∈ pages, p ≠ []) :
    runLoop fields k w (pages.map Except.ok : List (Except E (List (Hit V)))) st =
      ({ sink := pageFold fields k w st.sink pages.flatten,
         searchCalls := st.searchCalls + pages.length + 1,
         searchAfter := lastCursor pages st.searchAfter }, LoopExit.finished) := by
  have hpre := runLoop_ok_front fields k w pages
    ([] : List (Except E (List (Hit V)))) st hp
  rw [List.append_nil] at hpre
  rw [hpre]
  simp only [runLoop]

/-- A backend error after a prefix of successful nonempty pages stops the
loop with that error; no remainder flush happens inside the loop. -/
theorem runLoop_err_pages {V E : Type} (fields : Option (List String)) (k : Nat)
    (w : Nat → Bool) (pages : List (List (Hit V))) (e : E)
    (rest : List (Except E (List (Hit V)))) (st : LoopSt V)
    (hp : ∀ p ∈ pages, p ≠ []) :
    runLoop fields k w (pages.map Except.ok ++ Except.error e :: rest) st =
      ({ sink := pageFold fields k w st.sink pages.flatten,
         searchCalls := st.searchCalls + pages.length + 1,
         searchAfter := lastCursor pages st.searchAfter }, LoopExit.errored e) := by
  rw [runLoop_ok_front fields k w pages _ st hp]
  simp only [runLoop]

/-- The projected record stream delivered by a list of pages. -/
def srcStream {V : Type} (fields : Option (List String))
    (pages : List (List (Hit V))) : List (LogRec V) :=
  (pages.flatten).map (fun h => stepLog fields h.source)

/-- Unfolding of fetch_logs on the successful setup path: index validation
and snapshot open return normally and the output directory is created, so
the run executes the loop and always performs exactly one snapshot close. -/
theorem fetch_logs_success {V E : Type} {er : Except String Bool}
    {pr : Except String PitResponse} {pid : String}
    (h1 : validate_index_exists er = PyResult.ret ())
    (h2 : open_point_in_time pr = PyResult.ret pid)
    (b i rid : String) (fields : Option (List String)) (k : Nat)
    (w : Nat → Bool) (script : List (Except E (List (Hit V))))
    (closeOk : Nat → Bool) :
    fetch_logs er pr true b i rid fields k w script closeOk =
      { pitOpened := true, openedPit := some pid, closeCalls := 1,
        closedPit := some pid,
        closeResult := some (close_point_in_time_with_retries closeOk 3),
        saves :=
          match (runLoop fields k w script initLoopSt).snd with
          | LoopExit.finished =>
              finalSaves w (runLoop fields k w script initLoopSt).fst.sink
          | LoopExit.errored _ =>
              (runLoop fields k w script initLoopSt).fst.sink.saves,
        totalLogs := (runLoop fields k w script initLoopSt).fst.sink.totalLogs,
        searchCalls := (runLoop fields k w script initLoopSt).fst.searchCalls,
        outputDir := some (b ++ "/" ++ i ++ "/run_" ++ rid),
        exit :=
          match (runLoop fields k w script initLoopSt).snd with
          | LoopExit.finished => RunExit.ok
          | LoopExit.errored e => RunExit.backendError e } := by
  unfold fetch_logs
  rw [h1, h2]
  rfl

/-- Observable outcome of a complete run over successful nonempty pages,
reduced to the flat sink fold over the delivered record stream. -/
theorem fetch_logs_ok_pages {V E : Type} {er : Except String Bool}
    {pr : Except String PitResponse} {pid : String}
    (h1 : validate_index_exists er = PyResult.ret ())
    (h2 : open_point_in_time pr = PyResult.ret pid)
    (b i rid : String) (fields : Option (List String)) (k : Nat)
    (w : Nat → Bool) (pages : List (List (Hit V))) (closeOk : Nat → Bool)
    (hp : ∀ p ∈ pages, p ≠ []) :
    (fetch_logs er pr true b i rid fields k w
        (pages.map Except.ok : List (Except E (List (Hit V)))) closeOk).saves
        = finalSaves w
            ((srcStream fields pages).foldl (sinkAppend k w) initLoopSt.sink)
    ∧ (fetch_logs er pr true b i rid fields k w
        (pages.map Except.ok : List (Except E (List (Hit V)))) closeOk).totalLogs
        = (pages.flatten).length
    ∧ (fetch_logs er pr true b i rid fields k w
        (pages.map Except.ok : List (Except E (List (Hit V)))) closeOk).exit
        = RunExit.ok
    ∧ (fetch_logs er pr true b i rid fields k w
        (pages.map Except.ok : List (Except E (List (Hit V)))) closeOk).searchCalls
        = pages.length + 1
    ∧ (fetch_logs er pr true b i rid fields k w
        (pages.map Except.ok : List (Except E (List (Hit V)))) closeOk).closeCalls
        = 1
    ∧ (fetch_logs er pr true b i rid fields k w
        (pages.map Except.ok : List (Except E (List (Hit V)))) closeOk).closedPit
        = some pid
    ∧ (fetch_logs er pr true b i rid fields k w
        (pages.map Except.ok : List (Except E (List (Hit V)))) closeOk).closeResult
        = some (close_point_in_time_with_retries closeOk 3) := by
  rw [fetch_logs_success h1 h2 b i rid fields k w _ closeOk]
  rw [runLoop_ok_pages fields k w pages initLoopSt hp]
  refine ⟨?_, ?_, rfl, ?_, rfl, rfl, rfl⟩
  · rw [pageFold_eq]
    rfl
  · show (pageFold fields k w initLoopSt.sink pages.flatten).totalLogs
      = (pages.flatten).length
    rw [pageFold_eq, sink_foldl_total, List.length_map]
    simp [initLoopSt]
  · show initLoopSt.searchCalls + pages.length + 1 = pages.length + 1
    simp [initLoopSt]

/-- Helper: the retry loop result when every close attempt fails. -/
theorem closeAttempts_all_fail (closeOk : Nat → Bool)
    (hfail : ∀ i, closeOk i = false) :
    ∀ (n a : Nat), closeAttempts closeOk a n =
      { attempts := n, warnings := n, succeeded := false, errorLogged := true } := by
  intro n
  induction n with
  | zero => intro a; rfl
  | succ n ih =>
    intro a
    simp [closeAttempts, hfail a, ih (a + 1)]

/-- Helper: the retry loop result when the first successful attempt is j. -/
theorem closeAttempts_succ_at (closeOk : Nat → Bool) :
    ∀ (n a j : Nat), a ≤ j → j < a + n → closeOk j = true →
      (∀ i, i < j → closeOk i = false) →
      closeAttempts closeOk a n =
        { attempts := j - a + 1, warnings := j - a, succeeded := true,
          errorLogged := false } := by
  intro n
  induction n with
  | zero =>
    intro a j h1 h2 h3 h4
    exact absurd h2 (by omega)
  | succ n ih =>
    intro a j h1 h2 h3 h4
    by_cases ha : closeOk a = true
    · have haj : a = j := by
        by_contra hne
        have halt : a < j := by omega
        rw [h4 a halt] at ha
        simp at ha
      subst haj
      simp [closeAttempts, ha]
    · have ha2 : closeOk a = false := by
        cases hcl : closeOk a with
        | false => rfl
        | true => exact absurd hcl ha
      have haj : a < j := by
        by_contra hge
        have heq : a = j := by omega
        rw [heq, h3] at ha2
        simp at ha2
      simp only [closeAttempts, ha2, Bool.false_eq_true, if_false]
      rw [ih (a + 1) j (by omega) (by omega) h3 h4]
      simp [CloseResult.mk.injEq]
      omega

/-- C6: when every snapshot-close attempt fails, the function performs
exactly the given number of sequential attempts, logs one warning per
failure and the final exhaustion error, and reports no success; when the
first success happens at attempt j within the bound, exactly j attempts are
made with j minus one warnings, and no exhaustion error is logged.  In both
cases the function returns an ordinary result, so the run is not aborted. -/
theorem close_retries_spec (closeOk1 closeOk2 : Nat → Bool) (n j : Nat)
    (_hn : 1 ≤ n) (hfail : ∀ i, closeOk1 i = false)
    (hj1 : 1 ≤ j) (hjn : j ≤ n) (hsucc : closeOk2 j = true)
    (hbefore : ∀ i, i < j → closeOk2 i = false) :
    ((close_point_in_time_with_retries closeOk1 n).attempts = n
     ∧ (close_point_in_time_with_retries closeOk1 n).warnings = n
     ∧ (close_point_in_time_with_retries closeOk1 n).succeeded = false
     ∧ (close_point_in_time_with_retries closeOk1 n).errorLogged = true)
    ∧ ((close_point_in_time_with_retries closeOk2 n).attempts = j
       ∧ (close_point_in_time_with_retries closeOk2 n).warnings = j - 1
       ∧ (close_point_in_time_with_retries closeOk2 n).succeeded = true
       ∧ (close_point_in_time_with_retries closeOk2 n).errorLogged = false) := by
  unfold close_point_in_time_with_retries
  rw [closeAttempts_all_fail closeOk1 hfail n 1]
  rw [closeAttempts_succ_at closeOk2 n 1 j hj1 (by omega) hsucc hbefore]
  refine ⟨⟨rfl, rfl, rfl, rfl⟩, ?_, ?_, rfl, rfl⟩
  · show j - 1 + 1 = j
    omega
  · rfl

/-- C6 witness: with three attempts allowed, an always-failing close makes
exactly three attempts and three warnings, and a close succeeding at the
second attempt stops after two attempts with one warning. -/
theorem close_retries_spec_witness :
    ((close_point_in_time_with_retries (fun _ => false) 3).attempts = 3
     ∧ (close_point_in_time_with_retries (fun _ => false) 3).warnings = 3
     ∧ (close_point_in_time_with_retries (fun _ => false) 3).succeeded = false
     ∧ (close_point_in_time_with_retries (fun _ => false) 3).errorLogged = true)
    ∧ ((close_point_in_time_with_retries (fun i => i == 2) 3).attempts = 2
       ∧ (close_point_in_time_with_retries (fun i => i == 2) 3).warnings = 1
       ∧ (close_point_in_time_with_retries (fun i => i == 2) 3).succeeded = true
       ∧ (close_point_in_time_with_retries (fun i => i == 2) 3).errorLogged = false) :=
  close_retries_spec (fun _ => false) (fun i => i == 2) 3 2 (by omega)
    (fun _ => rfl) (by omega) (by omega) (by decide)
    (by
      intro i hi
      simp
      omega)

/-- C5: the query builder combines the supplied filters in the bool.must
conjunction list, uses the explicit match_all marker exactly when no filter
is supplied and never an empty clause list, includes the level match
exactly when a level is given, includes the timestamp range exactly when
some bound is given with gte and lte each present exactly when the
corresponding bound is given, and passes the snapshot handle, the page
size, the ascending timestamp sort, and the cursor through unchanged. -/
theorem build_query_spec (pit : String) (sa : Option (List Int))
    (level sd ed : Option String) (bs : Nat) :
    ((build_query pit sa level sd ed bs).must = MustClause.matchAll ↔
        (strTruthy level = false ∧ strTruthy sd = false ∧ strTruthy ed = false))
    ∧ (build_query pit sa level sd ed bs).must ≠ MustClause.clauses []
    ∧ levelFiltersOf (build_query pit sa level sd ed bs)
        = (if strTruthy level then [level.getD ""] else [])
    ∧ rangeFiltersOf (build_query pit sa level sd ed bs)
        = (if strTruthy sd || strTruthy ed then
            [{ gte := if strTruthy sd then sd else none,
               lte := if strTruthy ed then ed else none }] else [])
    ∧ mustFilters (build_query pit sa level sd ed bs).must
        = (levelFiltersOf (build_query pit sa level sd ed bs)).map QFilter.matchLevel
          ++ (rangeFiltersOf (build_query pit sa level sd ed bs)).map
              QFilter.rangeTimestamp
    ∧ (build_query pit sa level sd ed bs).pitId = pit
    ∧ (build_query pit sa level sd ed bs).size = bs
    ∧ (build_query pit sa level sd ed bs).sortTimestampAsc = true
    ∧ (build_query pit sa level sd ed bs).searchAfter
        = (if listTruthy sa then sa else none) := by
  cases hl : strTruthy level <;> cases hs : strTruthy sd <;>
    cases he : strTruthy ed <;>
    simp [build_query, mustFilters, levelFiltersOf, rangeFiltersOf, hl, hs, he]

/-- C4 counterexample: with the non-None empty fields list and a record
holding one key, the code buffers the record unchanged, so the projected
record does not consist of exactly the requested keys, which would be none
at all. -/
theorem projection_empty_fields_counterexample :
    stepLog (some []) ([("a", some 1)] : LogRec Nat) = [("a", some 1)]
    ∧ (stepLog (some []) ([("a", some 1)] : LogRec Nat)).map Prod.fst ≠ [] := by
  constructor
  · rfl
  · decide

/-- C4 amended: a record passes through unchanged when fields is None or the
empty list, and for every nonempty fields list the projected record has
exactly the requested keys in order, each carrying the dict lookup of that
key with default None, so a requested key absent from the source appears
with the explicit absent marker instead of being omitted. -/
theorem projection_spec {V : Type} (r : LogRec V) (fields : List String)
    (hf : fields ≠ []) :
    stepLog none r = r
    ∧ stepLog (some []) r = r
    ∧ (stepLog (some fields) r).map Prod.fst = fields
    ∧ stepLog (some fields) r = fields.map (fun k => (k, dictGet r k))
    ∧ (stepLog (some fields) r).map Prod.snd = fields.map (dictGet r) := by
  cases fields with
  | nil => exact absurd rfl hf
  | cons f fs =>
    refine ⟨rfl, rfl, ?_, rfl, ?_⟩
    · show (project (f :: fs) r).map Prod.fst = f :: fs
      simp only [project, List.map_map]
      rw [show (Prod.fst ∘ fun k : String => (k, dictGet r k)) = id from rfl,
        List.map_id]
    · show (project (f :: fs) r).map Prod.snd = (f :: fs).map (dictGet r)
      simp only [project, List.map_map]
      rfl

/-- C4 witness: projecting the record with key a onto the fields a and b
keeps the stored value of a and marks b explicitly absent. -/
theorem projection_spec_witness :
    (["a", "b"] : List String) ≠ []
    ∧ (stepLog none ([("a", some 1)] : LogRec Nat) = [("a", some 1)]
       ∧ stepLog (some []) ([("a", some 1)] : LogRec Nat) = [("a", some 1)]
       ∧ (stepLog (some ["a", "b"]) ([("a", some 1)] : LogRec Nat)).map Prod.fst
           = ["a", "b"]
       ∧ stepLog (some ["a", "b"]) ([("a", some 1)] : LogRec Nat)
           = ["a", "b"].map (fun k => (k, dictGet ([("a", some 1)] : LogRec Nat) k))
       ∧ (stepLog (some ["a", "b"]) ([("a", some 1)] : LogRec Nat)).map Prod.snd
           = ["a", "b"].map (dictGet ([("a", some 1)] : LogRec Nat))) :=
  ⟨by decide, projection_spec ([("a", some 1)] : LogRec Nat) ["a", "b"] (by decide)⟩

/-- C8 counterexample: three inner components terminate the process
directly on their failure paths instead of returning a typed error value:
the index check on a missing index, the snapshot open on a transport
error, and the output directory setup on an OS error all exit with
status 1. -/
theorem inner_components_sys_exit :
    validate_index_exists (Except.ok false) = PyResult.exit 1
    ∧ open_point_in_time (Except.error "connection refused") = PyResult.exit 1
    ∧ get_output_directory false "base" "idx" "20250101" = PyResult.exit 1 :=
  ⟨rfl, rfl, rfl⟩

/-- C8 amended: the inner components terminate the process directly via
sys.exit with status 1 on every failure path, namely the transport error
and the missing-index answer of the index check, the transport error and
the missing handle of the snapshot open, and the failed directory
creation; only their success paths return values to the orchestrator. -/
theorem inner_components_exit_codes (e : String) (b i rid : String) :
    validate_index_exists (Except.error e) = PyResult.exit 1
    ∧ validate_index_exists (Except.ok false) = PyResult.exit 1
    ∧ validate_index_exists (Except.ok true) = PyResult.ret ()
    ∧ open_point_in_time (Except.error e) = PyResult.exit 1
    ∧ open_point_in_time (Except.ok { pit_id := none, id := none })
        = PyResult.exit 1
    ∧ get_output_directory false b i rid = PyResult.exit 1
    ∧ get_output_directory true b i rid
        = PyResult.ret (b ++ "/" ++ i ++ "/run_" ++ rid) :=
  ⟨rfl, rfl, rfl, rfl, rfl, rfl, rfl⟩

/-- C1 counterexample: a run in which the index check and the snapshot open
both succeed but the output directory creation fails exits the process
without any snapshot close call, because the directory is created after the
snapshot is opened and outside the try block whose finally clause performs
the close. -/
theorem fetch_logs_close_skipped_on_dir_failure :
    (fetch_logs (Except.ok true) (Except.ok { pit_id := some "p1", id := none })
        false "out" "logs" "r1" none 5 (fun _ => true)
        ([] : List (Except Unit (List (Hit Nat)))) (fun _ => true)).pitOpened = true
    ∧ (fetch_logs (Except.ok true) (Except.ok { pit_id := some "p1", id := none })
        false "out" "logs" "r1" none 5 (fun _ => true)
        ([] : List (Except Unit (List (Hit Nat)))) (fun _ => true)).closeCalls = 0 :=
  ⟨rfl, rfl⟩

/-- C1 amended: once the snapshot open has returned a handle and the output
directory has been created, the close routine is invoked exactly once with
that handle on every exit path of the run, for every backend response
script including errors; but when the directory creation fails after a
successful open, the process exits with zero close calls. -/
theorem fetch_logs_close_scoped {V E : Type} {er : Except String Bool}
    {pr : Except String PitResponse} {pid : String}
    (h1 : validate_index_exists er = PyResult.ret ())
    (h2 : open_point_in_time pr = PyResult.ret pid)
    (b i rid : String) (fields : Option (List String)) (k : Nat)
    (w : Nat → Bool) (script : List (Except E (List (Hit V))))
    (closeOk : Nat → Bool) :
    (fetch_logs er pr true b i rid fields k w script closeOk).closeCalls = 1
    ∧ (fetch_logs er pr true b i rid fields k w script closeOk).closedPit = some pid
    ∧ (fetch_logs er pr true b i rid fields k w script closeOk).openedPit = some pid
    ∧ (fetch_logs er pr false b i rid fields k w script closeOk).pitOpened = true
    ∧ (fetch_logs er pr false b i rid fields k w script closeOk).closeCalls = 0 := by
  have hsucc := fetch_logs_success h1 h2 b i rid fields k w script closeOk
  refine ⟨?_, ?_, ?_, ?_, ?_⟩
  · rw [hsucc]
  · rw [hsucc]
  · rw [hsucc]
  · unfold fetch_logs
    rw [h1, h2]
    rfl
  · unfold fetch_logs
    rw [h1, h2]
    rfl

/-- C1 witness: a concrete run whose script raises a backend error on the
first search still performs exactly one close call with the opened handle,
and the same run with a failing directory creation performs none. -/
theorem fetch_logs_close_scoped_witness :
    validate_index_exists (Except.ok true) = PyResult.ret ()
    ∧ open_point_in_time (Except.ok { pit_id := some "p1", id := none })
        = PyResult.ret "p1"
    ∧ ((fetch_logs (Except.ok true) (Except.ok { pit_id := some "p1", id := none })
          true "out" "logs" "r1" none 5 (fun _ => true)
          ([Except.error "boom"] : List (Except String (List (Hit Nat))))
          (fun _ => false)).closeCalls = 1
       ∧ (fetch_logs (Except.ok true) (Except.ok { pit_id := some "p1", id := none })
          true "out" "logs" "r1" none 5 (fun _ => true)
          ([Except.error "boom"] : List (Except String (List (Hit Nat))))
          (fun _ => false)).closedPit = some "p1"
       ∧ (fetch_logs (Except.ok true) (Except.ok { pit_id := some "p1", id := none })
          true "out" "logs" "r1" none 5 (fun _ => true)
          ([Except.error "boom"] : List (Except String (List (Hit Nat))))
          (fun _ => false)).openedPit = some "p1"
       ∧ (fetch_logs (Except.ok true) (Except.ok { pit_id := some "p1", id := none })
          false "out" "logs" "r1" none 5 (fun _ => true)
          ([Except.error "boom"] : List (Except String (List (Hit Nat))))
          (fun _ => false)).pitOpened = true
       ∧ (fetch_logs (Except.ok true) (Except.ok { pit_id := some "p1", id := none })
          false "out" "logs" "r1" none 5 (fun _ => true)
          ([Except.error "boom"] : List (Except String (List (Hit Nat))))
          (fun _ => false)).closeCalls = 0) :=
  ⟨rfl, rfl,
    @fetch_logs_close_scoped Nat String (Except.ok true)
      (Except.ok { pit_id := some "p1", id := none }) "p1" rfl rfl
      "out" "logs" "r1" none 5 (fun _ => true)
      ([Except.error "boom"] : List (Except String (List (Hit Nat))))
      (fun _ => false)⟩

/-- C9: a backend error raised after any prefix of successful nonempty
pages propagates out of the run unchanged as the run outcome, for every
behavior of the close attempts, because every exception of a close attempt
is caught inside the close routine; the close is still called exactly once
and returns an ordinary result. -/
theorem fetch_logs_error_propagates {V E : Type} {er : Except String Bool}
    {pr : Except String PitResponse} {pid : String}
    (h1 : validate_index_exists er = PyResult.ret ())
    (h2 : open_point_in_time pr = PyResult.ret pid)
    (b i rid : String) (fields : Option (List String)) (k : Nat)
    (w : Nat → Bool) (pages : List (List (Hit V))) (e : E)
    (rest : List (Except E (List (Hit V)))) (closeOk1 closeOk2 : Nat → Bool)
    (hp : ∀ p ∈ pages, p ≠ []) :
    (fetch_logs er pr true b i rid fields k w
        (pages.map Except.ok ++ Except.error e :: rest) closeOk1).exit
      = RunExit.backendError e
    ∧ (fetch_logs er pr true b i rid fields k w
        (pages.map Except.ok ++ Except.error e :: rest) closeOk2).exit
      = RunExit.backendError e
    ∧ (fetch_logs er pr true b i rid fields k w
        (pages.map Except.ok ++ Except.error e :: rest) closeOk1).closeCalls = 1
    ∧ (fetch_logs er pr true b i rid fields k w
        (pages.map Except.ok ++ Except.error e :: rest) closeOk1).closeResult
      = some (close_point_in_time_with_retries closeOk1 3) := by
  have hrun := runLoop_err_pages fields k w pages e rest initLoopSt hp
  refine ⟨?_, ?_, ?_, ?_⟩
  · rw [fetch_logs_success h1 h2 b i rid fields k w _ closeOk1, hrun]
  · rw [fetch_logs_success h1 h2 b i rid fields k w _ closeOk2, hrun]
  · rw [fetch_logs_success h1 h2 b i rid fields k w _ closeOk1]
  · rw [fetch_logs_success h1 h2 b i rid fields k w _ closeOk1]

/-- One concrete hit used by the error propagation witness. -/
def hitA : Hit Nat := { source := [("a", some 1)], sortKey := [0] }

/-- C9 witness: a concrete run erroring on the second page propagates that
error whether the close attempts all fail or all succeed. -/
theorem fetch_logs_error_propagates_witness :
    validate_index_exists (Except.ok true) = PyResult.ret ()
    ∧ open_point_in_time (Except.ok { pit_id := some "p1", id := none })
        = PyResult.ret "p1"
    ∧ ((fetch_logs (Except.ok true) (Except.ok { pit_id := some "p1", id := none })
          true "out" "logs" "r1" none 5 (fun _ => true)
          (([[hitA]].map Except.ok ++ Except.error "disk" :: []) :
            List (Except String (List (Hit Nat)))) (fun _ => false)).exit
        = RunExit.backendError "disk"
       ∧ (fetch_logs (Except.ok true) (Except.ok { pit_id := some "p1", id := none })
          true "out" "logs" "r1" none 5 (fun _ => true)
          (([[hitA]].map Except.ok ++ Except.error "disk" :: []) :
            List (Except String (List (Hit Nat)))) (fun _ => true)).exit
        = RunExit.backendError "disk"
       ∧ (fetch_logs (Except.ok true) (Except.ok { pit_id := some "p1", id := none })
          true "out" "logs" "r1" none 5 (fun _ => true)
          (([[hitA]].map Except.ok ++ Except.error "disk" :: []) :
            List (Except String (List (Hit Nat)))) (fun _ => false)).closeCalls = 1
       ∧ (fetch_logs (Except.ok true) (Except.ok { pit_id := some "p1", id := none })
          true "out" "logs" "r1" none 5 (fun _ => true)
          (([[hitA]].map Except.ok ++ Except.error "disk" :: []) :
            List (Except String (List (Hit Nat)))) (fun _ => false)).closeResult
        = some (close_point_in_time_with_retries (fun _ => false) 3)) :=
  ⟨rfl, rfl,
    @fetch_logs_error_propagates Nat String (Except.ok true)
      (Except.ok { pit_id := some "p1", id := none }) "p1" rfl rfl
      "out" "logs" "r1" none 5 (fun _ => true) [[hitA]] "disk" []
      (fun _ => false) (fun _ => true) (by decide)⟩

/-- One synthetic record for the end-to-end scenario. -/
def mkHit (n : Nat) : Hit Nat :=
  { source := [("id", some n)], sortKey := [(n : Int)] }

/-- The 25 synthetic records of the end-to-end scenario, in sorted order. -/
def recs25 : List (Hit Nat) := (List.range 25).map mkHit

/-- The pages a backend holding the 25 records serves for batch size 10. -/
def pages25 : List (List (Hit Nat)) :=
  [recs25.take 10, (recs25.drop 10).take 10, recs25.drop 20]

/-- The backend response script of the scenario: three nonempty pages of
10, 10 and 5 records, then the empty page that signals exhaustion. -/
def script25 : List (Except Unit (List (Hit Nat))) :=
  pages25.map Except.ok ++ [Except.ok []]

/-- The end-to-end scenario run: batch size 10 pages, flush threshold 12. -/
def run25 : FetchResult Nat Unit :=
  fetch_logs (Except.ok true) (Except.ok { pit_id := some "pit25", id := none })
    true "out" "logs" "run1" none 12 (fun _ => true) script25 (fun _ => true)

/-- C3 counterexample: against a backend holding exactly 25 records with
batch size 10, the loop issues four search calls, not three, because after
the third page of 5 records it must issue one more search that returns the
empty page before it can detect exhaustion. -/
theorem run25_four_search_calls :
    run25.searchCalls = 4 ∧ ¬ run25.searchCalls = 3 := by
  constructor
  · rfl
  · decide

set_option maxRecDepth 8000 in
/-- C3 amended: the scenario issues exactly four backend fetches returning
10, 10, 5 and 0 records, and writes exactly three chunks of sizes 12, 12
and 1 with consecutive indices from 1, whose concatenation is exactly the
25 records in their served order, for a total count of 25. -/
theorem run25_end_to_end :
    pages25.map List.length = [10, 10, 5]
    ∧ run25.searchCalls = 4
    ∧ run25.saves.map (fun e => e.logs.length) = [12, 12, 1]
    ∧ run25.saves.map SaveEvent.index = [1, 2, 3]
    ∧ (run25.saves.map SaveEvent.logs).flatten = recs25.map Hit.source
    ∧ run25.totalLogs = 25
    ∧ run25.exit = RunExit.ok := by
  refine ⟨rfl, rfl, rfl, rfl, ?_, rfl, rfl⟩
  decide

/-- The save list after the remainder flush, as chunk payloads. -/
theorem finalSaves_logs {V : Type} (w : Nat → Bool) (s : SinkSt V) :
    (finalSaves w s).map SaveEvent.logs
      = s.saves.map SaveEvent.logs ++ bufOpt s.buffer := by
  unfold finalSaves bufOpt
  by_cases hb : s.buffer.isEmpty <;> simp [hb]

/-- The save list after the remainder flush, flattened. -/
theorem finalSaves_flatten {V : Type} (w : Nat → Bool) (s : SinkSt V) :
    ((finalSaves w s).map SaveEvent.logs).flatten
      = (s.saves.map SaveEvent.logs).flatten ++ s.buffer := by
  rw [finalSaves_logs]
  unfold bufOpt
  by_cases hb : s.buffer.isEmpty
  · rw [if_pos hb]
    rw [List.isEmpty_iff] at hb
    simp [hb]
  · rw [if_neg hb]
    simp

/-- The remainder flush keeps the chunk indices consecutive from one. -/
theorem finalSaves_indices {V : Type} (w : Nat → Bool) (s : SinkSt V)
    (hidx : s.saves.map SaveEvent.index = List.range' 1 s.saves.length)
    (hctr : s.chunkCounter = 1 + s.saves.length) :
    (finalSaves w s).map SaveEvent.index
      = List.range' 1 (finalSaves w s).length := by
  unfold finalSaves
  by_cases hb : s.buffer.isEmpty
  · simp only [hb, if_pos]
    exact hidx
  · rw [if_neg (by simp [hb])]
    simp only [List.map_append, List.map_cons, List.map_nil, List.length_append,
      List.length_cons, List.length_nil]
    rw [hidx, hctr, List.range'_concat]
    simp

/-- The remainder flush keeps the recorded write outcomes given by writeOk. -/
theorem finalSaves_okcol {V : Type} (w : Nat → Bool) (s : SinkSt V)
    (hok : s.saves.map SaveEvent.ok = (s.saves.map SaveEvent.index).map w) :
    (finalSaves w s).map SaveEvent.ok
      = ((finalSaves w s).map SaveEvent.index).map w := by
  unfold finalSaves
  by_cases hb : s.buffer.isEmpty
  · simp only [hb, if_pos]
    exact hok
  · rw [if_neg (by simp [hb])]
    simp [hok]

/-- Shape of the saved chunks of a complete run: payloads are the greedy
chunking of the delivered stream, indices are consecutive from one, and
each recorded write outcome is writeOk at its chunk index. -/
theorem fetch_logs_chunk_shape {V E : Type} {er : Except String Bool}
    {pr : Except String PitResponse} {pid : String}
    (h1 : validate_index_exists er = PyResult.ret ())
    (h2 : open_point_in_time pr = PyResult.ret pid)
    (b i rid : String) (fields : Option (List String)) (k : Nat)
    (w : Nat → Bool) (pages : List (List (Hit V))) (closeOk : Nat → Bool)
    (hk : 1 ≤ k) (hp : ∀ p ∈ pages, p ≠ []) :
    (fetch_logs er pr true b i rid fields k w
        (pages.map Except.ok : List (Except E (List (Hit V)))) closeOk).saves.map
        SaveEvent.logs
      = chunkSpec k (srcStream fields pages)
    ∧ (fetch_logs er pr true b i rid fields k w
        (pages.map Except.ok : List (Except E (List (Hit V)))) closeOk).saves.map
        SaveEvent.index
      = List.range' 1
          (fetch_logs er pr true b i rid fields k w
            (pages.map Except.ok : List (Except E (List (Hit V)))) closeOk).saves.length
    ∧ (fetch_logs er pr true b i rid fields k w
        (pages.map Except.ok : List (Except E (List (Hit V)))) closeOk).saves.map
        SaveEvent.ok
      = ((fetch_logs er pr true b i rid fields k w
          (pages.map Except.ok : List (Except E (List (Hit V)))) closeOk).saves.map
          SaveEvent.index).map w := by
  obtain ⟨hsaves, -, -, -, -, -, -⟩ :=
    fetch_logs_ok_pages h1 h2 b i rid fields k w pages closeOk hp
  rw [hsaves]
  have hinit : (initLoopSt (V := V)).sink.buffer.length < k := by
    simp [initLoopSt]
    omega
  refine ⟨?_, ?_, ?_⟩
  · have hlogs := sink_foldl_logs hk w (srcStream fields pages)
      initLoopSt.sink hinit
    rw [finalSaves_logs]
    simpa [initLoopSt] using hlogs
  · obtain ⟨m, hctr, hidx, hlen⟩ := sink_foldl_indices k w
      (srcStream fields pages) initLoopSt.sink
    apply finalSaves_indices
    · rw [hidx, hlen]
      simp [initLoopSt]
    · rw [hctr, hlen]
      simp [initLoopSt]
  · apply finalSaves_okcol
    apply sink_foldl_okcol
    simp [initLoopSt]

/-- The delivered stream has one record per hit. -/
theorem srcStream_length {V : Type} (fields : Option (List String))
    (pages : List (List (Hit V))) :
    (srcStream fields pages).length = (pages.flatten).length := by
  unfold srcStream
  rw [List.length_map]

/-- Componentwise equal maps give equal pair maps. -/
theorem map_pair_eq {α β γ : Type} (f : α → β) (g : α → γ) :
    ∀ (l1 l2 : List α), l1.map f = l2.map f → l1.map g = l2.map g →
      l1.map (fun x => (f x, g x)) = l2.map (fun x => (f x, g x)) := by
  intro l1
  induction l1 with
  | nil =>
    intro l2 hf hg
    cases l2 with
    | nil => rfl
    | cons b l2 => simp at hf
  | cons a l ih =>
    intro l2 hf hg
    cases l2 with
    | nil => simp at hf
    | cons c l2 =>
      simp at hf hg ⊢
      exact ⟨⟨hf.1, hg.1⟩, ih l2 hf.2 hg.2⟩

/-- Ceiling division vanishes only on the empty stream. -/
theorem ceilDiv_eq_zero_iff {n k : Nat} (hk : 1 ≤ k) :
    ceilDiv n k = 0 ↔ n = 0 := by
  unfold ceilDiv
  rw [Nat.div_eq_zero_iff (by omega)]
  omega

/-- C2: for every flush threshold k of at least one and every complete run
delivering n records, the pipeline performs exactly ceiling of n over k
save calls with nonempty payloads and consecutive chunk indices starting at
one; every chunk except possibly the last holds exactly k records, the
last holds n modulo k records or k when k divides n, no chunk exceeds k,
no save call at all happens when n is zero, and the reported total is n. -/
theorem fetch_logs_chunk_boundary_law {V E : Type} {er : Except String Bool}
    {pr : Except String PitResponse} {pid : String}
    (h1 : validate_index_exists er = PyResult.ret ())
    (h2 : open_point_in_time pr = PyResult.ret pid)
    (b i rid : String) (fields : Option (List String)) (k : Nat)
    (w : Nat → Bool) (pages : List (List (Hit V))) (closeOk : Nat → Bool)
    (hk : 1 ≤ k) (hp : ∀ p ∈ pages, p ≠ []) :
    (fetch_logs er pr true b i rid fields k w
        (pages.map Except.ok : List (Except E (List (Hit V)))) closeOk).saves.length
      = ceilDiv (pages.flatten).length k
    ∧ (fetch_logs er pr true b i rid fields k w
        (pages.map Except.ok : List (Except E (List (Hit V)))) closeOk).saves.map
        SaveEvent.index
      = List.range' 1 (ceilDiv (pages.flatten).length k)
    ∧ ((fetch_logs er pr true b i rid fields k w
        (pages.map Except.ok : List (Except E (List (Hit V)))) closeOk).saves.map
        fun ev => ev.logs.length).dropLast
      = List.replicate (ceilDiv (pages.flatten).length k - 1) k
    ∧ ((fetch_logs er pr true b i rid fields k w
        (pages.map Except.ok : List (Except E (List (Hit V)))) closeOk).saves.map
        fun ev => ev.logs.length).getLast?
      = (if (pages.flatten).length = 0 then none
         else some (if (pages.flatten).length % k = 0 then k
                    else (pages.flatten).length % k))
    ∧ ((fetch_logs er pr true b i rid fields k w
        (pages.map Except.ok : List (Except E (List (Hit V)))) closeOk).saves.map
        fun ev => ev.logs.length).all (fun s => decide (s ≤ k)) = true
    ∧ ((fetch_logs er pr true b i rid fields k w
        (pages.map Except.ok : List (Except E (List (Hit V)))) closeOk).saves.map
        fun ev => ev.logs.isEmpty).all (fun x => !x) = true
    ∧ ((fetch_logs er pr true b i rid fields k w
        (pages.map Except.ok : List (Except E (List (Hit V)))) closeOk).saves = []
       ↔ (pages.flatten).length = 0)
    ∧ (fetch_logs er pr true b i rid fields k w
        (pages.map Except.ok : List (Except E (List (Hit V)))) closeOk).totalLogs
      = (pages.flatten).length := by
  obtain ⟨hlogs, hidx, -⟩ :=
    fetch_logs_chunk_shape h1 h2 b i rid fields k w pages closeOk hk hp
  obtain ⟨-, htot, -, -, -, -, -⟩ :=
    fetch_logs_ok_pages h1 h2 b i rid fields k w pages closeOk hp
  have hq : (srcStream fields pages).length = (pages.flatten).length :=
    srcStream_length fields pages
  have hlen : (fetch_logs er pr true b i rid fields k w
      (pages.map Except.ok : List (Except E (List (Hit V)))) closeOk).saves.length
      = ceilDiv (pages.flatten).length k := by
    have hll := congrArg List.length hlogs
    simp only [List.length_map] at hll
    rw [hll, chunkSpec_length hk, hq]
  have hsizes : ((fetch_logs er pr true b i rid fields k w
      (pages.map Except.ok : List (Except E (List (Hit V)))) closeOk).saves.map
      fun ev => ev.logs.length)
      = (chunkSpec k (srcStream fields pages)).map List.length := by
    rw [← hlogs, List.map_map]
    rfl
  refine ⟨hlen, ?_, ?_, ?_, ?_, ?_, ?_, htot⟩
  · rw [hidx, hlen]
  · rw [hsizes, chunkSpec_dropLast hk, chunkSpec_length hk, hq]
  · rw [hsizes, chunkSpec_getLast hk, hq]
  · rw [hsizes, List.all_eq_true]
    intro x hx
    rcases List.mem_map.mp hx with ⟨c, hc, hxc⟩
    subst hxc
    exact decide_eq_true (chunkSpec_mem hk _ c hc).1
  · have hmm : ((fetch_logs er pr true b i rid fields k w
        (pages.map Except.ok : List (Except E (List (Hit V)))) closeOk).saves.map
        fun ev => ev.logs.isEmpty)
        = (chunkSpec k (srcStream fields pages)).map List.isEmpty := by
      rw [← hlogs, List.map_map]
      rfl
    rw [hmm, List.all_eq_true]
    intro x hx
    rcases List.mem_map.mp hx with ⟨c, hc, hxc⟩
    subst hxc
    simp [List.isEmpty_eq_false.mpr (chunkSpec_mem hk _ c hc).2]
  · rw [← List.length_eq_zero, hlen, ceilDiv_eq_zero_iff hk]

/-- Three synthetic records in a single page, used by the witnesses. -/
def pages3 : List (List (Hit Nat)) := [[mkHit 0, mkHit 1, mkHit 2]]

/-- C2 witness: three records with threshold two produce two chunks of
sizes two and one with indices one and two, and a total count of three. -/
theorem fetch_logs_chunk_boundary_law_witness :
    (fetch_logs (Except.ok true) (Except.ok { pit_id := some "p1", id := none })
        true "out" "logs" "r1" none 2 (fun _ => true)
        (pages3.map Except.ok : List (Except Unit (List (Hit Nat))))
        (fun _ => true)).saves.length = 2
    ∧ (fetch_logs (Except.ok true) (Except.ok { pit_id := some "p1", id := none })
        true "out" "logs" "r1" none 2 (fun _ => true)
        (pages3.map Except.ok : List (Except Unit (List (Hit Nat))))
        (fun _ => true)).saves.map SaveEvent.index = [1, 2]
    ∧ ((fetch_logs (Except.ok true) (Except.ok { pit_id := some "p1", id := none })
        true "out" "logs" "r1" none 2 (fun _ => true)
        (pages3.map Except.ok : List (Except Unit (List (Hit Nat))))
        (fun _ => true)).saves.map fun ev => ev.logs.length).dropLast = [2]
    ∧ ((fetch_logs (Except.ok true) (Except.ok { pit_id := some "p1", id := none })
        true "out" "logs" "r1" none 2 (fun _ => true)
        (pages3.map Except.ok : List (Except Unit (List (Hit Nat))))
        (fun _ => true)).saves.map fun ev => ev.logs.length).getLast? = some 1
    ∧ ((fetch_logs (Except.ok true) (Except.ok { pit_id := some "p1", id := none })
        true "out" "logs" "r1" none 2 (fun _ => true)
        (pages3.map Except.ok : List (Except Unit (List (Hit Nat))))
        (fun _ => true)).saves.map fun ev => ev.logs.length).all
        (fun s => decide (s ≤ 2)) = true
    ∧ ((fetch_logs (Except.ok true) (Except.ok { pit_id := some "p1", id := none })
        true "out" "logs" "r1" none 2 (fun _ => true)
        (pages3.map Except.ok : List (Except Unit (List (Hit Nat))))
        (fun _ => true)).saves.map fun ev => ev.logs.isEmpty).all
        (fun x => !x) = true
    ∧ ((fetch_logs (Except.ok true) (Except.ok { pit_id := some "p1", id := none })
        true "out" "logs" "r1" none 2 (fun _ => true)
        (pages3.map Except.ok : List (Except Unit (List (Hit Nat))))
        (fun _ => true)).saves = [] ↔ (3 : Nat) = 0)
    ∧ (fetch_logs (Except.ok true) (Except.ok { pit_id := some "p1", id := none })
        true "out" "logs" "r1" none 2 (fun _ => true)
        (pages3.map Except.ok : List (Except Unit (List (Hit Nat))))
        (fun _ => true)).totalLogs = 3 :=
  @fetch_logs_chunk_boundary_law Nat Unit (Except.ok true)
    (Except.ok { pit_id := some "p1", id := none }) "p1" rfl rfl
    "out" "logs" "r1" none 2 (fun _ => true) pages3 (fun _ => true)
    (by omega) (by decide)

/-- C7: for a complete run with no projection, the concatenation of all
save call payloads is exactly the served record stream in order, and both
the saved chunks and the total count depend only on the concatenation of
the pages, not on how the backend grouped them into batches. -/
theorem fetch_logs_stream_preserved {V E : Type} {er : Except String Bool}
    {pr : Except String PitResponse} {pid : String}
    (h1 : validate_index_exists er = PyResult.ret ())
    (h2 : open_point_in_time pr = PyResult.ret pid)
    (b i rid : String) (k : Nat) (w : Nat → Bool) (closeOk : Nat → Bool)
    (pages pages2 : List (List (Hit V)))
    (hp : ∀ p ∈ pages, p ≠ []) (hp2 : ∀ p ∈ pages2, p ≠ [])
    (hsame : pages.flatten = pages2.flatten) :
    ((fetch_logs er pr true b i rid none k w
        (pages.map Except.ok : List (Except E (List (Hit V)))) closeOk).saves.map
        SaveEvent.logs).flatten
      = (pages.flatten).map Hit.source
    ∧ (fetch_logs er pr true b i rid none k w
        (pages.map Except.ok : List (Except E (List (Hit V)))) closeOk).saves
      = (fetch_logs er pr true b i rid none k w
        (pages2.map Except.ok : List (Except E (List (Hit V)))) closeOk).saves
    ∧ (fetch_logs er pr true b i rid none k w
        (pages.map Except.ok : List (Except E (List (Hit V)))) closeOk).totalLogs
      = (fetch_logs er pr true b i rid none k w
        (pages2.map Except.ok : List (Except E (List (Hit V)))) closeOk).totalLogs
    ∧ (fetch_logs er pr true b i rid none k w
        (pages.map Except.ok : List (Except E (List (Hit V)))) closeOk).exit
      = RunExit.ok
    ∧ (fetch_logs er pr true b i rid none k w
        (pages2.map Except.ok : List (Except E (List (Hit V)))) closeOk).exit
      = RunExit.ok := by
  obtain ⟨hs1, ht1, he1, -, -, -, -⟩ :=
    fetch_logs_ok_pages h1 h2 b i rid none k w pages closeOk hp
  obtain ⟨hs2, ht2, he2, -, -, -, -⟩ :=
    fetch_logs_ok_pages h1 h2 b i rid none k w pages2 closeOk hp2
  have hqq : srcStream none pages = srcStream none pages2 := by
    unfold srcStream
    rw [hsame]
  refine ⟨?_, ?_, ?_, he1, he2⟩
  · rw [hs1, finalSaves_flatten,
      sink_foldl_flatten k w (srcStream none pages) initLoopSt.sink]
    simp only [initLoopSt, List.map_nil, List.flatten_nil, List.nil_append]
    rfl
  · rw [hs1, hs2, hqq]
  · rw [ht1, ht2, congrArg List.length hsame]

/-- C7 witness: two records served as two pages of one or as one page of
two yield the same two chunks, the same payload stream, and total two. -/
theorem fetch_logs_stream_preserved_witness :
    ((fetch_logs (Except.ok true) (Except.ok { pit_id := some "p1", id := none })
        true "out" "logs" "r1" none 5 (fun _ => true)
        (([[mkHit 0], [mkHit 1]] : List (List (Hit Nat))).map Except.ok
          : List (Except Unit (List (Hit Nat)))) (fun _ => true)).saves.map
        SaveEvent.logs).flatten
      = (([[mkHit 0], [mkHit 1]] : List (List (Hit Nat))).flatten).map Hit.source
    ∧ (fetch_logs (Except.ok true) (Except.ok { pit_id := some "p1", id := none })
        true "out" "logs" "r1" none 5 (fun _ => true)
        (([[mkHit 0], [mkHit 1]] : List (List (Hit Nat))).map Except.ok
          : List (Except Unit (List (Hit Nat)))) (fun _ => true)).saves
      = (fetch_logs (Except.ok true) (Except.ok { pit_id := some "p1", id := none })
        true "out" "logs" "r1" none 5 (fun _ => true)
        (([[mkHit 0, mkHit 1]] : List (List (Hit Nat))).map Except.ok
          : List (Except Unit (List (Hit Nat)))) (fun _ => true)).saves
    ∧ (fetch_logs (Except.ok true) (Except.ok { pit_id := some "p1", id := none })
        true "out" "logs" "r1" none 5 (fun _ => true)
        (([[mkHit 0], [mkHit 1]] : List (List (Hit Nat))).map Except.ok
          : List (Except Unit (List (Hit Nat)))) (fun _ => true)).totalLogs
      = (fetch_logs (Except.ok true) (Except.ok { pit_id := some "p1", id := none })
        true "out" "logs" "r1" none 5 (fun _ => true)
        (([[mkHit 0, mkHit 1]] : List (List (Hit Nat))).map Except.ok
          : List (Except Unit (List (Hit Nat)))) (fun _ => true)).totalLogs
    ∧ (fetch_logs (Except.ok true) (Except.ok { pit_id := some "p1", id := none })
        true "out" "logs" "r1" none 5 (fun _ => true)
        (([[mkHit 0], [mkHit 1]] : List (List (Hit Nat))).map Except.ok
          : List (Except Unit (List (Hit Nat)))) (fun _ => true)).exit
      = RunExit.ok
    ∧ (fetch_logs (Except.ok true) (Except.ok { pit_id := some "p1", id := none })
        true "out" "logs" "r1" none 5 (fun _ => true)
        (([[mkHit 0, mkHit 1]] : List (List (Hit Nat))).map Except.ok
          : List (Except Unit (List (Hit Nat)))) (fun _ => true)).exit
      = RunExit.ok :=
  @fetch_logs_stream_preserved Nat Unit (Except.ok true)
    (Except.ok { pit_id := some "p1", id := none }) "p1" rfl rfl
    "out" "logs" "r1" 5 (fun _ => true) (fun _ => true)
    [[mkHit 0], [mkHit 1]] [[mkHit 0, mkHit 1]]
    (by decide) (by decide) (by decide)

/-- C10: a failed chunk write is recorded on its save call and changes
nothing else: the run still completes normally, the total count still
counts the dropped records, the chunk indices still advance consecutively
so each chunk is saved exactly once without retry, every save call carries
the write outcome of its own index including the final remainder flush,
and the sequence of save calls with their indices and payloads is the same
as in a run whose writes all behave differently. -/
theorem save_failure_skip_and_continue {V E : Type} {er : Except String Bool}
    {pr : Except String PitResponse} {pid : String}
    (h1 : validate_index_exists er = PyResult.ret ())
    (h2 : open_point_in_time pr = PyResult.ret pid)
    (b i rid : String) (fields : Option (List String)) (k : Nat)
    (w w2 : Nat → Bool) (pages : List (List (Hit V))) (closeOk : Nat → Bool)
    (hk : 1 ≤ k) (hp : ∀ p ∈ pages, p ≠ []) :
    (fetch_logs er pr true b i rid fields k w
        (pages.map Except.ok : List (Except E (List (Hit V)))) closeOk).exit
      = RunExit.ok
    ∧ (fetch_logs er pr true b i rid fields k w
        (pages.map Except.ok : List (Except E (List (Hit V)))) closeOk).totalLogs
      = (pages.flatten).length
    ∧ (fetch_logs er pr true b i rid fields k w
        (pages.map Except.ok : List (Except E (List (Hit V)))) closeOk).saves.map
        SaveEvent.index
      = List.range' 1 (ceilDiv (pages.flatten).length k)
    ∧ (fetch_logs er pr true b i rid fields k w
        (pages.map Except.ok : List (Except E (List (Hit V)))) closeOk).saves.map
        SaveEvent.ok
      = ((fetch_logs er pr true b i rid fields k w
          (pages.map Except.ok : List (Except E (List (Hit V)))) closeOk).saves.map
          SaveEvent.index).map w
    ∧ (fetch_logs er pr true b i rid fields k w
        (pages.map Except.ok : List (Except E (List (Hit V)))) closeOk).saves.map
        (fun ev => (ev.index, ev.logs))
      = (fetch_logs er pr true b i rid fields k w2
        (pages.map Except.ok : List (Except E (List (Hit V)))) closeOk).saves.map
        (fun ev => (ev.index, ev.logs)) := by
  obtain ⟨hl1, hi1, ho1⟩ :=
    fetch_logs_chunk_shape h1 h2 b i rid fields k w pages closeOk hk hp
  obtain ⟨hl2, hi2, -⟩ :=
    fetch_logs_chunk_shape h1 h2 b i rid fields k w2 pages closeOk hk hp
  obtain ⟨-, htot, hexit, -, -, -, -⟩ :=
    fetch_logs_ok_pages h1 h2 b i rid fields k w pages closeOk hp
  have hq : (srcStream fields pages).length = (pages.flatten).length :=
    srcStream_length fields pages
  have hlen1 : (fetch_logs er pr true b i rid fields k w
      (pages.map Except.ok : List (Except E (List (Hit V)))) closeOk).saves.length
      = ceilDiv (pages.flatten).length k := by
    have hll := congrArg List.length hl1
    simp only [List.length_map] at hll
    rw [hll, chunkSpec_length hk, hq]
  have hlen2 : (fetch_logs er pr true b i rid fields k w2
      (pages.map Except.ok : List (Except E (List (Hit V)))) closeOk).saves.length
      = ceilDiv (pages.flatten).length k := by
    have hll := congrArg List.length hl2
    simp only [List.length_map] at hll
    rw [hll, chunkSpec_length hk, hq]
  refine ⟨hexit, htot, ?_, ho1, ?_⟩
  · rw [hi1, hlen1]
  · exact map_pair_eq SaveEvent.index SaveEvent.logs _ _
      (by rw [hi1, hi2, hlen1, hlen2]) (by rw [hl1, hl2])

/-- C10 witness: with three records, threshold two, and a write that fails
exactly on chunk two, the run still completes with total three, indices one
and two, the recorded outcomes true and false, and the same save calls as
a run whose writes all succeed. -/
theorem save_failure_skip_and_continue_witness :
    (fetch_logs (Except.ok true) (Except.ok { pit_id := some "p1", id := none })
        true "out" "logs" "r1" none 2 (fun idx => !(idx == 2))
        (pages3.map Except.ok : List (Except Unit (List (Hit Nat))))
        (fun _ => true)).exit = RunExit.ok
    ∧ (fetch_logs (Except.ok true) (Except.ok { pit_id := some "p1", id := none })
        true "out" "logs" "r1" none 2 (fun idx => !(idx == 2))
        (pages3.map Except.ok : List (Except Unit (List (Hit Nat))))
        (fun _ => true)).totalLogs = 3
    ∧ (fetch_logs (Except.ok true) (Except.ok { pit_id := some "p1", id := none })
        true "out" "logs" "r1" none 2 (fun idx => !(idx == 2))
        (pages3.map Except.ok : List (Except Unit (List (Hit Nat))))
        (fun _ => true)).saves.map SaveEvent.index = [1, 2]
    ∧ (fetch_logs (Except.ok true) (Except.ok { pit_id := some "p1", id := none })
        true "out" "logs" "r1" none 2 (fun idx => !(idx == 2))
        (pages3.map Except.ok : List (Except Unit (List (Hit Nat))))
        (fun _ => true)).saves.map SaveEvent.ok
      = ((fetch_logs (Except.ok true)
            (Except.ok { pit_id := some "p1", id := none })
            true "out" "logs" "r1" none 2 (fun idx => !(idx == 2))
            (pages3.map Except.ok : List (Except Unit (List (Hit Nat))))
            (fun _ => true)).saves.map SaveEvent.index).map
          (fun idx => !(idx == 2))
    ∧ (fetch_logs (Except.ok true) (Except.ok { pit_id := some "p1", id := none })
        true "out" "logs" "r1" none 2 (fun idx => !(idx == 2))
        (pages3.map Except.ok : List (Except Unit (List (Hit Nat))))
        (fun _ => true)).saves.map (fun ev => (ev.index, ev.logs))
      = (fetch_logs (Except.ok true) (Except.ok { pit_id := some "p1", id := none })
        true "out" "logs" "r1" none 2 (fun _ => true)
        (pages3.map Except.ok : List (Except Unit (List (Hit Nat))))
        (fun _ => true)).saves.map (fun ev => (ev.index, ev.logs)) :=
  @save_failure_skip_and_continue Nat Unit (Except.ok true)
    (Except.ok { pit_id := some "p1", id := none }) "p1" rfl rfl
    "out" "logs" "r1" none 2 (fun idx => !(idx == 2)) (fun _ => true) pages3
    (fun _ => true) (by omega) (by decide)

end Elk
